import Mathlib

/-!
Verification development for the GULP interface module of PyXtal
(`pyxtal/interface/gulp.py`).

The module contains two calculator classes (`GULP` for inorganic crystals,
`GULP_OC` for molecular crystals), a static atom-type table `at_types`,
and two driver functions (`single_optimize`, `optimize`).  Each class has a
deck writer (`write`), a process runner (`execute`, external), and a log
parser (`read`).

This file shallowly embeds the deck writers, the log parsers and the
multi-stage driver.  Python strings are modelled as `List Char`; a log is a
`List (List Char)` (the `readlines` result with trailing newlines stripped;
`'\n'` is whitespace for every primitive used on a line, so this is
behaviour-preserving).  Python `float` values are modelled by `PFloat`
(exact rationals plus `inf`, `-inf` and `nan`); raised exceptions are
modelled by `Except` (a bare `except:` catches every error alike, so a unit
error type suffices for the parsers).  External collaborators
(`pyxtal.lattice.Lattice` constructors, `numpy` array packing, site-update
methods, the subprocess layer and the file system) are modelled as total
opaque-value constructors, as documented at each definition.
-/

/-- Python whitespace characters recognised by `str.split()` and by the
regular-expression class `\s` (ASCII range, which is all the parser ever
meets). -/
def isPySpace (c : Char) : Bool :=
  c = ' ' || c = '\t' || c = '\n' || c = '\r' || c = '\x0b' || c = '\x0c'

/-- Test whether `pat` is a prefix of `text` (character lists). -/
def startsWithL : List Char → List Char → Bool
  | [], _ => true
  | _ :: _, [] => false
  | p :: ps, c :: cs => p = c && startsWithL ps cs

/-- Python `line.find(pat) != -1`: substring containment on character lists. -/
def containsL (pat : List Char) : List Char → Bool
  | [] => startsWithL pat []
  | c :: cs => startsWithL pat (c :: cs) || containsL pat cs

/-- Drop the leading Python whitespace of a character list (what a greedy
regex `\s*` consumes when followed by a non-whitespace literal). -/
def dropWs (l : List Char) : List Char :=
  l.dropWhile isPySpace

/-- Helper for `pySplit`: accumulates the current token (reversed). -/
def pySplitAux : List Char → List Char → List (List Char)
  | [], cur => if cur.isEmpty then [] else [cur.reverse]
  | c :: cs, cur =>
    if isPySpace c then
      if cur.isEmpty then pySplitAux cs [] else cur.reverse :: pySplitAux cs []
    else
      pySplitAux cs (c :: cur)

/-- Python `str.split()` with no argument: split on runs of whitespace,
discarding empty fields. -/
def pySplit (l : List Char) : List (List Char) :=
  pySplitAux l []

/-- Python list indexing `xs[n]` for a non-negative index: raises
(`IndexError`) when out of range. -/
def pyIndex {α : Type} (xs : List α) (n : ℕ) : Except Unit α :=
  match xs.get? n with
  | some x => Except.ok x
  | none => Except.error ()

/-- Python `xs[-1]` on a list known to be indexed from the back. -/
def pyLast {α : Type} (xs : List α) : Except Unit α :=
  match xs.getLast? with
  | some x => Except.ok x
  | none => Except.error ()

/-- Rational multiplication spelled through `mkRat` (definitionally equal
to `*` on `ℚ`, but reducible by the kernel, which evaluation of concrete
log texts needs). -/
def qmul (a b : ℚ) : ℚ :=
  mkRat (a.num * b.num) (a.den * b.den)

/-- Rational addition spelled through `mkRat`. -/
def qadd (a b : ℚ) : ℚ :=
  mkRat (a.num * (b.den : ℤ) + b.num * (a.den : ℤ)) (a.den * b.den)

/-- Absolute value of a rational, kernel-reducible. -/
def qabs (q : ℚ) : ℚ :=
  if Rat.blt q 0 then Rat.neg q else q

/-- The power `10^ex : ℚ` for an integer exponent, kernel-reducible. -/
def qpow10 : ℤ → ℚ
  | Int.ofNat k => mkRat ((10 ^ k : ℕ) : ℤ) 1
  | Int.negSucc k => mkRat 1 (10 ^ (k + 1))

/-- Floor of a rational (`num.fdiv den` on the reduced representation). -/
def qfloor (q : ℚ) : ℤ :=
  Int.fdiv q.num (q.den : ℤ)

/-- Model of a Python `float` value: an exact rational, one of the two
infinities, or `nan`.  The source never performs arithmetic that would
require binary rounding on the values a claim mentions, so rationals are
used for the finite case. -/
inductive PFloat where
  | finite (q : ℚ)
  | inf
  | neginf
  | nan
  deriving DecidableEq

/-- Python unary minus on a float. -/
def pneg : PFloat → PFloat
  | PFloat.finite q => PFloat.finite (Rat.neg q)
  | PFloat.inf => PFloat.neginf
  | PFloat.neginf => PFloat.inf
  | PFloat.nan => PFloat.nan

/-- Python `float + float` (used by `time_total += time`). -/
def padd : PFloat → PFloat → PFloat
  | PFloat.finite a, PFloat.finite b => PFloat.finite (qadd a b)
  | PFloat.finite _, PFloat.inf => PFloat.inf
  | PFloat.finite _, PFloat.neginf => PFloat.neginf
  | PFloat.inf, PFloat.finite _ => PFloat.inf
  | PFloat.neginf, PFloat.finite _ => PFloat.neginf
  | PFloat.inf, PFloat.inf => PFloat.inf
  | PFloat.neginf, PFloat.neginf => PFloat.neginf
  | PFloat.inf, PFloat.neginf => PFloat.nan
  | PFloat.neginf, PFloat.inf => PFloat.nan
  | PFloat.nan, _ => PFloat.nan
  | _, PFloat.nan => PFloat.nan

/-- Python `e / n` for a float `e` and the integer `n = len(...)`:
`ZeroDivisionError` when `n = 0`. -/
def pdivLen : PFloat → ℕ → Except Unit PFloat
  | _, 0 => Except.error ()
  | PFloat.finite q, n => Except.ok (PFloat.finite (mkRat q.num (q.den * n)))
  | PFloat.inf, _ => Except.ok PFloat.inf
  | PFloat.neginf, _ => Except.ok PFloat.neginf
  | PFloat.nan, _ => Except.ok PFloat.nan

/-- Python `np.isnan` on a float value. -/
def pIsNan : PFloat → Bool
  | PFloat.nan => true
  | _ => false

/-- Python `abs(e) < tol` for a float `e` and a positive rational
tolerance (`False` on `nan`, as in IEEE comparison). -/
def pAbsLt (e : PFloat) (tol : ℚ) : Bool :=
  match e with
  | PFloat.finite q => Rat.blt (qabs q) tol
  | PFloat.inf => false
  | PFloat.neginf => false
  | PFloat.nan => false

/-- Numeric value of a decimal digit string. -/
def natOfDigits (ds : List Char) : ℕ :=
  ds.foldl (fun acc c => acc * 10 + (c.toNat - 48)) 0

/-- Strip Python whitespace from both ends (what `float(...)`/`int(...)` do
before parsing). -/
def stripWs (l : List Char) : List Char :=
  ((l.dropWhile isPySpace).reverse.dropWhile isPySpace).reverse

/-- Decimal part of Python `float()` parsing, after the optional sign:
`digits [. digits] [exponent]` or `. digits [exponent]`, consuming the
whole token.  (The rarely used underscore digit grouping of Python ≥ 3.6 is
not modelled; no claim exercises it.) -/
def pyFloatDec (neg : Bool) (body : List Char) : Except Unit PFloat :=
  let ipart := body.takeWhile Char.isDigit
  let r1 := body.drop ipart.length
  let hasDot := startsWithL (".".toList) r1
  let fpart := if hasDot then (r1.drop 1).takeWhile Char.isDigit else []
  let r2 := if hasDot then (r1.drop 1).drop fpart.length else r1
  if ipart.isEmpty && fpart.isEmpty then Except.error ()
  else
    let parseExp : Except Unit ℤ :=
      if r2.isEmpty then Except.ok 0
      else if startsWithL ("e".toList) r2 || startsWithL ("E".toList) r2 then
        let r3 := r2.drop 1
        let eneg := startsWithL ("-".toList) r3
        let r4 := if eneg || startsWithL ("+".toList) r3 then r3.drop 1 else r3
        let edigits := r4.takeWhile Char.isDigit
        if edigits.isEmpty || !(r4.drop edigits.length).isEmpty then Except.error ()
        else Except.ok (if eneg then -(natOfDigits edigits : ℤ) else (natOfDigits edigits : ℤ))
      else Except.error ()
    match parseExp with
    | Except.error _ => Except.error ()
    | Except.ok ex =>
      let mag : ℚ :=
        qmul (mkRat ((natOfDigits (ipart ++ fpart) : ℕ) : ℤ) (10 ^ fpart.length))
          (qpow10 ex)
      Except.ok (PFloat.finite (if neg then Rat.neg mag else mag))

/-- Model of Python `float(token)`: optional surrounding whitespace,
optional sign, then a decimal literal or (case-insensitively)
`inf`/`infinity`/`nan`.  Raises (`ValueError`) otherwise. -/
def pyFloat (t : List Char) : Except Unit PFloat :=
  let s := stripWs t
  let neg := startsWithL ("-".toList) s
  let body := if neg || startsWithL ("+".toList) s then s.drop 1 else s
  let lower := body.map Char.toLower
  if lower = "inf".toList || lower = "infinity".toList then
    Except.ok (if neg then PFloat.neginf else PFloat.inf)
  else if lower = "nan".toList then
    Except.ok PFloat.nan
  else
    pyFloatDec neg body

/-- Model of Python `int(token)`: optional surrounding whitespace, optional
sign, decimal digits only. -/
def pyInt (t : List Char) : Except Unit ℤ :=
  let s := stripWs t
  let neg := startsWithL ("-".toList) s
  let body := if neg || startsWithL ("+".toList) s then s.drop 1 else s
  if body.isEmpty || !(body.all Char.isDigit) then Except.error ()
  else Except.ok (if neg then -(natOfDigits body : ℤ) else (natOfDigits body : ℤ))

/-- Literal `eV` that terminates the energy regular expressions. -/
def evStr : List Char := "eV".toList

/-- Backtracking search for the greedy capture `(\S+)` followed by
`\s*eV`: the capture is the longest prefix (length at most `k`) of the
maximal non-whitespace run `run` such that the remainder still matches
`\s*eV`. -/
def tryCapture (run rest : List Char) : ℕ → Option (List Char)
  | 0 => none
  | k + 1 =>
    let g := run.take (k + 1)
    let after := run.drop (k + 1) ++ rest
    if startsWithL evStr (dropWs after) then some g else tryCapture run rest k

/-- Model of `re.match(r"\s*LIT\s*=\s*(\S+)\s*eV", line)` returning the
captured group: the three energy-line patterns of `GULP.read` and the one
of `GULP_OC.read` differ only in the literal `LIT`. -/
def matchEnergyGroup (lit : List Char) (line : List Char) : Option (List Char) :=
  let r1 := dropWs line
  if startsWithL lit r1 then
    let r2 := dropWs (r1.drop lit.length)
    if startsWithL ("=".toList) r2 then
      let r3 := dropWs (r2.drop 1)
      let run := r3.takeWhile (fun c => !(isPySpace c))
      tryCapture run (r3.drop run.length) run.length
    else none
  else none

/-- Literal of the plain energy line pattern of `GULP.read`. -/
def engLit : List Char := "Total lattice energy".toList

/-- Literal of the enthalpy line pattern (used when an external pressure is
supplied). -/
def enthLit : List Char := "Total lattice enthalpy".toList

/-- Literal of the non-primitive energy line pattern (used on the symmetry
path for non-P space groups). -/
def npCellLit : List Char := "Non-primitive unit cell".toList

/-- Completion marker literal. -/
def jobLit : List Char := "Job Finished".toList

/-- CPU-time marker literal. -/
def cpuLit : List Char := "Total CPU time".toList

/-- Stress block header literal. -/
def stressLit : List Char := "Final stress tensor components".toList

/-- Forces block header literal. -/
def derivLit : List Char := "Final internal derivatives".toList

/-- Iteration counter line literal. -/
def cycleLit : List Char := " Cycle: ".toList

/-- Asymmetric-unit coordinate block header literal (`GULP.read`). -/
def asymLit : List Char := "Final asymmetric unit coordinates".toList

/-- Fractional coordinate block header literal. -/
def fracLit : List Char := "Final fractional coordinates of atoms".toList

/-- Cartesian lattice vector block header literal. -/
def cartLit : List Char := "Final Cartesian lattice vectors".toList

/-- Non-primitive lattice parameter block header literal. -/
def nonPrimLit : List Char := "Non-primitive lattice parameters".toList

/-- Dashed sentinel terminating the variable-length blocks. -/
def dashLit : List Char := "------------".toList

/-- Data the parser reads from an attached `pyxtal` object: the first
character of the space-group symbol, the number of atom sites (length of
`atom_sites`), and the lattice type string. -/
structure PyxInfo where
  symbolHead : Char
  nAsym : ℕ
  ltype : List Char
  deriving DecidableEq

/-- Loop-invariant context of a `GULP.read` call: the `symmetry` flag, the
attached `pyxtal` object (if any) and the external pressure, all set in
`GULP.__init__`. -/
structure Ctx where
  symmetry : Bool
  pyxtal : Option PyxInfo
  pstress : Option ℚ
  deriving DecidableEq

/-- Lattice type string used by `GULP.read`:
`self.pyxtal.lattice.ltype if self.pyxtal is not None else "triclinic"`. -/
def ctxLtype (ctx : Ctx) : List Char :=
  match ctx.pyxtal with
  | some p => p.ltype
  | none => "triclinic".toList

/-- Model of the external `pyxtal.lattice.Lattice` values the parser
builds: `from_matrix` keeps the row matrix, `from_para` keeps the six
parameters.  Both external constructors are modelled as total. -/
inductive GLat where
  | ofMatrix (rows : List (List PFloat)) (ltype : List Char)
  | ofPara (a b c al be ga : PFloat) (ltype : List Char)
  deriving DecidableEq

/-- Per-line selection of the energy pattern literal in `GULP.read`
(re-evaluated each iteration in the source, but loop-invariant): raises
(`AttributeError`) when `symmetry` is set with no attached `pyxtal`. -/
def pickEnergyLit (ctx : Ctx) : Except Unit (List Char) :=
  let restLit : List Char :=
    if ctx.pstress = none || ctx.pstress = some 0 then engLit else enthLit
  if ctx.symmetry then
    match ctx.pyxtal with
    | none => Except.error ()
    | some p => Except.ok (if p.symbolHead ≠ 'P' then npCellLit else restLit)
  else Except.ok restLit

/-- Mutable state threaded through the scan of `GULP.read`: the `self`
attributes the loop assigns plus the two local lattice variables.
`fracCoords` starts as the input fractional coordinates (converted to
floats) and may be overwritten by the fractional-coordinate block;
`asymCoords` records the values handed to the external
`atom_sites[i].update` calls. -/
structure ScanSt where
  energy : Option PFloat
  energyPerAtom : Option PFloat
  optimized : Bool
  cputime : PFloat
  stress : Option (List PFloat)
  forces : Option (List (List PFloat))
  iterN : ℤ
  fracCoords : List (List PFloat)
  asymCoords : Option (List (List PFloat))
  latticePara : Option GLat
  latticeVector : Option GLat
  deriving DecidableEq

/-- Initial scan state (the relevant attribute values set in
`GULP.__init__`). -/
def initScan (frac0 : List (List PFloat)) : ScanSt :=
  { energy := none, energyPerAtom := none, optimized := false,
    cputime := PFloat.finite 0, stress := none, forces := none, iterN := 0,
    fracCoords := frac0, asymCoords := none, latticePara := none,
    latticeVector := none }

/-- CPU-time line: `float(line.split()[-1])`. -/
def cpuParse (line : List Char) : Except Unit PFloat := do
  let t ← pyLast (pySplit line)
  pyFloat t

/-- Iteration line: `int(line.split()[1])`. -/
def cycleParse (line : List Char) : Except Unit ℤ := do
  let t ← pyIndex (pySplit line) 1
  pyInt t

/-- One row of the stress block: tokens 1 and 3 of `lines[i+j+3]`. -/
def stressRow (lines : List (List Char)) (idx : ℕ) : Except Unit (PFloat × PFloat) := do
  let ln ← pyIndex lines idx
  let toks := pySplit ln
  let t1 ← pyIndex toks 1
  let v1 ← pyFloat t1
  let t3 ← pyIndex toks 3
  let v3 ← pyFloat t3
  Except.ok (v1, v3)

/-- Stress block at header index `i`: three rows at offsets 3,4,5, packed
as `[σ₁,σ₂,σ₃]` from token 1 and `[σ₄,σ₅,σ₆]` from token 3. -/
def stressParse (lines : List (List Char)) (i : ℕ) : Except Unit (List PFloat) := do
  let r0 ← stressRow lines (i + 3)
  let r1 ← stressRow lines (i + 4)
  let r2 ← stressRow lines (i + 5)
  Except.ok [r0.1, r1.1, r2.1, r0.2, r1.2, r2.2]

/-- Positions `p ≥ 1` of `'-'` in a token, as computed by the comprehension
`[i + 1 for i, e in enumerate(g[j][1:]) if e == "-"]`. -/
def minusIdx (t : List Char) : List ℕ :=
  (t.drop 1).enum.filterMap (fun p => if p.2 = '-' then some (p.1 + 1) else none)

/-- The merged-negative-number splitting of the forces block (the
`for j in range(2)` fix-up over the padded token triple `g`). -/
def fixG (g0 g1 g2 : List Char) : List Char × List Char × List Char :=
  match minusIdx g0 with
  | [] =>
    match minusIdx g1 with
    | [] => (g0, g1, g2)
    | k0 :: _ => (g0, g1.take k0, g1.drop k0)
  | [i0] =>
    let h2 := g1
    let h1 := g0.drop i0
    let h0 := g0.take i0
    match minusIdx h1 with
    | [] => (h0, h1, h2)
    | k0 :: _ => (h0, h1.take k0, h1.drop k0)
  | i0 :: i1 :: _ => (g0.take i0, (g0.drop i0).take (i1 - i0), g0.drop i1)

/-- One data row of the forces block: slice tokens `[3:6]`, pad with `" "`
to three entries, apply the minus-sign fix-up, then negate each parsed
value (in `ase.units`, `eV = Ang = 1.0`, so `-float(x)*eV/Ang` is plain
negation). -/
def forcesRow (ln : List Char) : Except Unit (List PFloat) := do
  let toks := (pySplit ln).drop 3 |>.take 3
  let g0 := (toks.get? 0).getD (" ".toList)
  let g1 := (toks.get? 1).getD (" ".toList)
  let g2 := (toks.get? 2).getD (" ".toList)
  let h := fixG g0 g1 g2
  let v0 ← pyFloat h.1
  let v1 ← pyFloat h.2.1
  let v2 ← pyFloat h.2.2
  Except.ok [pneg v0, pneg v1, pneg v2]

/-- Sentinel-terminated forces loop starting after `s`: reads `lines[s+1]`,
stops at a dashed line, raises (`IndexError`) past the end of the log.  The
fuel argument is always instantiated with `lines.length + 1`, which the
strictly increasing index exhausts only after an out-of-range access has
already raised. -/
def forcesLoop (lines : List (List Char)) : ℕ → ℕ → List (List PFloat) →
    Except Unit (List (List PFloat))
  | 0, _, _ => Except.error ()
  | fuel + 1, s, acc => do
    let ln ← pyIndex lines (s + 1)
    if containsL dashLit ln then Except.ok acc.reverse
    else do
      let row ← forcesRow ln
      forcesLoop lines fuel (s + 1) (row :: acc)

/-- Forces block at header index `i`: the loop starts with `s = i + 5` and
first reads `lines[i+6]`. -/
def forcesParse (lines : List (List Char)) (i : ℕ) : Except Unit (List (List PFloat)) :=
  forcesLoop lines (lines.length + 1) (i + 5) []

/-- Sentinel-terminated fractional-coordinate loop: collects the float
triple at tokens `[3:6]` and the species token at index 1 of each row. -/
def fracLoop (lines : List (List Char)) : ℕ → ℕ → List (List PFloat) →
    List (List Char) → Except Unit (List (List PFloat) × List (List Char))
  | 0, _, _, _ => Except.error ()
  | fuel + 1, s, acc, spacc => do
    let ln ← pyIndex lines (s + 1)
    if containsL dashLit ln then Except.ok (acc.reverse, spacc.reverse)
    else do
      let toks := pySplit ln
      let xyz := (toks.drop 3).take 3
      let pos ← xyz.mapM pyFloat
      let sp ← pyIndex toks 1
      fracLoop lines fuel (s + 1) (pos :: acc) (sp :: spacc)

/-- Fractional-coordinate block at header index `i` (loop starts with
`s = i + 5`); `np.array` packing of the collected rows is modelled as the
identity. -/
def fracParse (lines : List (List Char)) (i : ℕ) :
    Except Unit (List (List PFloat) × List (List Char)) :=
  fracLoop lines (lines.length + 1) (i + 5) [] []

/-- Fixed-count asymmetric-unit rows: one row per `pyxtal` atom site,
starting at `lines[i+6]`. -/
def asymRows (lines : List (List Char)) : ℕ → ℕ → Except Unit (List (List PFloat))
  | _, 0 => Except.ok []
  | s, n + 1 => do
    let ln ← pyIndex lines s
    let xyz := ((pySplit ln).drop 3).take 3
    let v ← xyz.mapM pyFloat
    let rest ← asymRows lines (s + 1) n
    Except.ok (v :: rest)

/-- Asymmetric-unit block: raises (`AttributeError`) when no `pyxtal`
object is attached; otherwise parses `len(atom_sites)` rows whose values
are handed to the external `atom_sites[_i].update` calls. -/
def asymParse (ctx : Ctx) (lines : List (List Char)) (i : ℕ) :
    Except Unit (List (List PFloat)) :=
  match ctx.pyxtal with
  | none => Except.error ()
  | some p => asymRows lines (i + 6) p.nAsym

/-- One row of the Cartesian lattice vector block: tokens 0,1,2. -/
def cartRow (lines : List (List Char)) (idx : ℕ) : Except Unit (List PFloat) := do
  let ln ← pyIndex lines idx
  let toks := pySplit ln
  let t0 ← pyIndex toks 0
  let v0 ← pyFloat t0
  let t1 ← pyIndex toks 1
  let v1 ← pyFloat t1
  let t2 ← pyIndex toks 2
  let v2 ← pyFloat t2
  Except.ok [v0, v1, v2]

/-- Cartesian lattice vector block at header index `i`: three rows at
offsets 2,3,4. -/
def cartMatrixParse (lines : List (List Char)) (i : ℕ) :
    Except Unit (List (List PFloat)) := do
  let r0 ← cartRow lines (i + 2)
  let r1 ← cartRow lines (i + 3)
  let r2 ← cartRow lines (i + 4)
  Except.ok [r0, r1, r2]

/-- Non-primitive lattice parameter block at header index `i`: lengths from
tokens 2,5,8 of `lines[i+2]`, angles from tokens 1,3,5 of `lines[i+3]`. -/
def paraParse (lines : List (List Char)) (i : ℕ) (ltype : List Char) :
    Except Unit GLat := do
  let ln1 ← pyIndex lines (i + 2)
  let toks1 := pySplit ln1
  let ta ← pyIndex toks1 2
  let a ← pyFloat ta
  let tb ← pyIndex toks1 5
  let b ← pyFloat tb
  let tc ← pyIndex toks1 8
  let c ← pyFloat tc
  let ln2 ← pyIndex lines (i + 3)
  let toks2 := pySplit ln2
  let tal ← pyIndex toks2 1
  let al ← pyFloat tal
  let tbe ← pyIndex toks2 3
  let be ← pyFloat tbe
  let tga ← pyIndex toks2 5
  let ga ← pyFloat tga
  Except.ok (GLat.ofPara a b c al be ga ltype)

/-- One iteration of the scan loop of `GULP.read` at line index `i`.  A
returned `Except.error st` models an exception raised after the state
mutations `st` already happened (only the energy branch mutates before a
possible raise). -/
def processLine (ctx : Ctx) (lines : List (List Char)) (i : ℕ) (line : List Char)
    (st : ScanSt) : Except ScanSt ScanSt :=
  match pickEnergyLit ctx with
  | Except.error _ => Except.error st
  | Except.ok lit =>
    match matchEnergyGroup lit line with
    | some g =>
      match pyFloat g with
      | Except.error _ => Except.error st
      | Except.ok e =>
        let st1 := { st with energy := some e }
        match pdivLen e st1.fracCoords.length with
        | Except.error _ => Except.error st1
        | Except.ok epa => Except.ok { st1 with energyPerAtom := some epa }
    | none =>
      if containsL jobLit line then Except.ok { st with optimized := true }
      else if containsL cpuLit line then
        match cpuParse line with
        | Except.error _ => Except.error st
        | Except.ok v => Except.ok { st with cputime := v }
      else if containsL stressLit line then
        match stressParse lines i with
        | Except.error _ => Except.error st
        | Except.ok sv => Except.ok { st with stress := some sv }
      else if containsL derivLit line then
        match forcesParse lines i with
        | Except.error _ => Except.error st
        | Except.ok fv => Except.ok { st with forces := some fv }
      else if containsL cycleLit line then
        match cycleParse line with
        | Except.error _ => Except.error st
        | Except.ok n => Except.ok { st with iterN := n }
      else if containsL asymLit line then
        match asymParse ctx lines i with
        | Except.error _ => Except.error st
        | Except.ok av => Except.ok { st with asymCoords := some av }
      else if containsL fracLit line then
        match fracParse lines i with
        | Except.error _ => Except.error st
        | Except.ok pr => Except.ok { st with fracCoords := pr.1 }
      else if containsL cartLit line then
        match cartMatrixParse lines i with
        | Except.error _ => Except.error st
        | Except.ok m => Except.ok { st with latticeVector := some (GLat.ofMatrix m (ctxLtype ctx)) }
      else if containsL nonPrimLit line then
        match paraParse lines i (ctxLtype ctx) with
        | Except.error _ => Except.error st
        | Except.ok lp => Except.ok { st with latticePara := some lp }
      else Except.ok st

/-- Sequential scan over the enumerated lines; the second component
reports whether an exception aborted the loop (to be caught by the bare
`except:` of `GULP.read`). -/
def scanAux (ctx : Ctx) (lines : List (List Char)) :
    List (List Char) → ℕ → ScanSt → ScanSt × Bool
  | [], _, st => (st, false)
  | l :: rest, i, st =>
    match processLine ctx lines i l st with
    | Except.ok st1 => scanAux ctx lines rest (i + 1) st1
    | Except.error st1 => (st1, true)

/-- The whole `for i, line in enumerate(lines)` scan of `GULP.read`. -/
def gulpScan (ctx : Ctx) (frac0 : List (List PFloat)) (lines : List (List Char)) :
    ScanSt × Bool :=
  scanAux ctx lines lines 0 (initScan frac0)

/-- Result record of `GULP.read`: the attribute values observable after the
call returns. -/
structure GULPResult where
  energy : Option PFloat
  energyPerAtom : Option PFloat
  optimized : Bool
  cputime : PFloat
  stress : Option (List PFloat)
  forces : Option (List (List PFloat))
  iterN : ℤ
  fracCoords : List (List PFloat)
  lattice : GLat
  error : Bool
  deriving DecidableEq

/-- Post-scan logic of `GULP.read`: the bare `except:` handler (sets the
error flag and clears the energy), the lattice resolution (parameter form
first, then vector form, else an error with the input lattice left in
place), and the final `energy is None or np.isnan(energy)` check. -/
def postProcess (lat0 : GLat) (st : ScanSt) (raised : Bool) : GULPResult :=
  let en1 : Option PFloat := if raised then none else st.energy
  let lat : GLat :=
    match st.latticePara with
    | some lp => lp
    | none =>
      match st.latticeVector with
      | some lv => lv
      | none => lat0
  let noLat : Bool :=
    match st.latticePara, st.latticeVector with
    | none, none => true
    | _, _ => false
  let err2 : Bool := raised || noLat
  let en2 : Option PFloat := if noLat then none else en1
  let err3 : Bool :=
    match en2 with
    | none => true
    | some e => if pIsNan e then true else err2
  let en3 : Option PFloat :=
    match en2 with
    | none => none
    | some e => if pIsNan e then none else some e
  { energy := en3, energyPerAtom := st.energyPerAtom, optimized := st.optimized,
    cputime := st.cputime, stress := st.stress, forces := st.forces,
    iterN := st.iterN, fracCoords := st.fracCoords, lattice := lat, error := err3 }

/-- Model of `GULP.read`: scan the log, catch any exception, resolve the
lattice and run the final energy check.  `lat0` is the lattice attribute
value before the call and `frac0` the input fractional coordinates. -/
def gulpRead (ctx : Ctx) (lat0 : GLat) (frac0 : List (List PFloat))
    (lines : List (List Char)) : GULPResult :=
  let p := gulpScan ctx frac0 lines
  postProcess lat0 p.1 p.2

/-- Asymmetric-unit header literal of `GULP_OC.read` (a prefix of both
coordinate headers the class accepts). -/
def ocAsymLit : List Char := "Final asymmetric unit coord".toList

/-- External inputs of a `GULP_OC.read` call: the structure's current
lattice matrix (used as fallback) and the group's lattice type string. -/
structure OCInfo where
  latticeMatrix : List (List ℚ)
  latticeType : List Char
  deriving DecidableEq

/-- Mutable state threaded through the scan of `GULP_OC.read` (`version`,
the external `structure.energy` attribute, and the `self` attributes the
loop assigns). -/
structure OCSt where
  version : Option (List Char)
  energy : Option PFloat
  optimized : Bool
  cputime : PFloat
  stress : Option (List PFloat)
  iterN : ℤ
  positions : Option (List (List PFloat))
  speciesL : Option (List (List Char))
  cell : Option (List (List PFloat))
  deriving DecidableEq

/-- Initial `GULP_OC` scan state (attribute values set in
`GULP_OC.__init__`; `structure.energy` unset is modelled as `none`). -/
def initOC : OCSt :=
  { version := none, energy := none, optimized := false,
    cputime := PFloat.finite 0, stress := none, iterN := 0, positions := none,
    speciesL := none, cell := none }

/-- One iteration of the scan loop of `GULP_OC.read` at line index `i`.
Unlike `GULP.read`, nothing catches a raised exception here, so the error
is propagated to the caller (error type `Unit`, one bare exception). -/
def ocProcessLine (lines : List (List Char)) (i : ℕ) (line : List Char)
    (st : OCSt) : Except Unit OCSt :=
  let st0 := if i = 7 then { st with version := some line } else st
  if containsL engLit line then
    match matchEnergyGroup engLit line with
    | some g =>
      match pyFloat g with
      | Except.error _ => Except.error ()
      | Except.ok e => Except.ok { st0 with energy := some e }
    | none => Except.ok st0
  else if containsL jobLit line then Except.ok { st0 with optimized := true }
  else if containsL cpuLit line then
    match cpuParse line with
    | Except.error _ => Except.error ()
    | Except.ok v => Except.ok { st0 with cputime := v }
  else if containsL stressLit line then
    match stressParse lines i with
    | Except.error _ => Except.error ()
    | Except.ok sv => Except.ok { st0 with stress := some sv }
  else if containsL cycleLit line then
    match cycleParse line with
    | Except.error _ => Except.error ()
    | Except.ok n => Except.ok { st0 with iterN := n }
  else if containsL ocAsymLit line || containsL fracLit line then
    match fracParse lines i with
    | Except.error _ => Except.error ()
    | Except.ok pr => Except.ok { st0 with positions := some pr.1, speciesL := some pr.2 }
  else if containsL cartLit line then
    match cartMatrixParse lines i with
    | Except.error _ => Except.error ()
    | Except.ok m => Except.ok { st0 with cell := some m }
  else Except.ok st0

/-- Sequential scan of `GULP_OC.read`; a raised exception aborts the call
itself. -/
def ocScanAux (lines : List (List Char)) :
    List (List Char) → ℕ → OCSt → Except Unit OCSt
  | [], _, st => Except.ok st
  | l :: rest, i, st =>
    match ocProcessLine lines i l st with
    | Except.error e => Except.error e
    | Except.ok st1 => ocScanAux lines rest (i + 1) st1

/-- Result record of `GULP_OC.read` on normal return.  There is no error
flag: the class defines none. -/
structure OCResult where
  version : Option (List Char)
  energy : Option PFloat
  optimized : Bool
  cputime : PFloat
  stress : Option (List PFloat)
  iterN : ℤ
  positions : Option (List (List PFloat))
  speciesL : Option (List (List Char))
  cell : List (List PFloat)
  lattice : GLat
  deriving DecidableEq

/-- Model of `GULP_OC.read`: scan the log (exceptions propagate), then fall
back to the input structure's lattice matrix when no Cartesian-vectors
block was seen, and rebuild `self.lattice` from the final cell with the
group's lattice type.  The trailing molecular-site update loop mutates only
external structure state inside its own `try/except` and is not part of the
returned record. -/
def gulpOCRead (info : OCInfo) (lines : List (List Char)) : Except Unit OCResult :=
  match ocScanAux lines lines 0 initOC with
  | Except.error e => Except.error e
  | Except.ok st =>
    let cell : List (List PFloat) :=
      match st.cell with
      | some c => c
      | none => info.latticeMatrix.map (fun r => r.map PFloat.finite)
    Except.ok
      { version := st.version, energy := st.energy, optimized := st.optimized,
        cputime := st.cputime, stress := st.stress, iterN := st.iterN,
        positions := st.positions, speciesL := st.speciesL, cell := cell,
        lattice := GLat.ofMatrix cell info.latticeType }

/-- Parameter names accepted by the signature of `single_optimize`. -/
def singleOptimizeParamNames : List (List Char) :=
  ["struc".toList, "ff".toList, "steps".toList, "pstress".toList,
   "opt".toList, "path".toList, "label".toList, "clean".toList,
   "symmetry".toList, "labels".toList]

/-- Keyword argument names `optimize` passes at its `single_optimize` call
site (besides the two positional arguments). -/
def optimizeCallKeywords : List (List Char) :=
  ["pstress".toList, "opt".toList, "exe".toList, "path".toList,
   "label".toList, "clean".toList]

/-- Python keyword binding check: every passed keyword must name an
accepted parameter, else the call raises `TypeError`. -/
def kwargsAccepted (accepted passed : List (List Char)) : Bool :=
  passed.all (fun k => accepted.contains k)

/-- Whether the `single_optimize` call inside `optimize` binds: constant
over the whole loop. -/
def optimizeKwargsOk : Bool :=
  kwargsAccepted singleOptimizeParamNames optimizeCallKeywords

/-- Minimal structure model for the driver: the lattice matrix the
zero-energy heuristic rescales. -/
structure DStruc where
  matrix : List (List ℚ)
  deriving DecidableEq

/-- The `struc.lattice.set_matrix(matrix * 0.8)` rescale. -/
def scaleStruc (s : DStruc) : DStruc :=
  { matrix := s.matrix.map (fun r => r.map (fun x => qmul x (mkRat 4 5))) }

/-- Return shape of one `single_optimize` stage:
`(struc, energy_per_atom, cputime, error)`. -/
structure StageRes where
  struc : Option DStruc
  energy : Option PFloat
  time : PFloat
  err : Bool

/-- Zero-energy tolerance `1e-8` of the adjust heuristic. -/
def adjustTol : ℚ := mkRat 1 100000000

/-- Loop body of `optimize`, transcribed: each iteration first performs the
`single_optimize(...)` call, whose keyword binding is checked against the
callee's signature (`TypeError` aborts when it fails); on a bound call the
stage oracle supplies the stage result.  `acc` holds the `energy` variable
of the loop (`none` = still unbound, raising `NameError` at the final
return). -/
def optimizeLoop (stage : Option DStruc → List Char → StageRes) (adjust : Bool) :
    List (List Char) → Option DStruc → PFloat → Option (Option PFloat) →
    Except Unit (Option DStruc × Option PFloat × PFloat × Bool)
  | [], _, _, none => Except.error ()
  | [], struc, tt, some e => Except.ok (struc, e, tt, false)
  | m :: rest, struc, tt, _ =>
    if optimizeKwargsOk then
      let r := stage struc m
      let tt1 := padd tt r.time
      if r.err then Except.ok (none, none, PFloat.finite 0, true)
      else if adjust then
        match r.energy with
        | none => Except.error ()
        | some ev =>
          if pAbsLt ev adjustTol then
            match r.struc with
            | none => Except.error ()
            | some s2 => optimizeLoop stage adjust rest (some (scaleStruc s2)) tt1 (some (some ev))
          else optimizeLoop stage adjust rest r.struc tt1 (some r.energy)
      else optimizeLoop stage adjust rest r.struc tt1 (some r.energy)
    else Except.error ()

/-- Model of the multi-stage driver `optimize`: resolve the default mode
list and run the loop with `time_total = 0` and the loop variables unbound. -/
def optimizeModel (stage : Option DStruc → List Char → StageRes) (adjust : Bool)
    (optimizations : Option (List (List Char))) (struc0 : Option DStruc) :
    Except Unit (Option DStruc × Option PFloat × PFloat × Bool) :=
  let ms := optimizations.getD ["conp".toList, "conp".toList]
  optimizeLoop stage adjust ms struc0 (PFloat.finite 0) none

/-- Round a rational to the nearest integer, ties to even (the rounding of
Python fixed-point float formatting on exactly representable values). -/
def roundHalfEven (q : ℚ) : ℤ :=
  let f := qfloor q
  let r := qadd q (Rat.neg (mkRat f 1))
  let half : ℚ := mkRat 1 2
  if Rat.blt r half then f
  else if Rat.blt half r then f + 1
  else if f % 2 = 0 then f else f + 1

/-- Python format `{:w.pf}` on an exactly representable value: fixed-point
with `p` decimals, right-aligned in a field of width `w`. -/
def fmtFixed (w p : ℕ) (q : ℚ) : List Char :=
  let neg := Rat.blt q 0
  let m := (roundHalfEven (qmul (qabs q) (mkRat ((10 ^ p : ℕ) : ℤ) 1))).toNat
  let ds := Nat.toDigits 10 m
  let ds2 := if ds.length < p + 1 then List.replicate (p + 1 - ds.length) '0' ++ ds else ds
  let ip := ds2.take (ds2.length - p)
  let fp := ds2.drop (ds2.length - p)
  let body := (if neg then ['-'] else []) ++ ip ++ (if p = 0 then [] else '.' :: fp)
  if body.length < w then List.replicate (w - body.length) ' ' ++ body else body

/-- Python format `{:4s}`: left-justify in a field of width 4. -/
def fmt4s (s : List Char) : List Char :=
  if s.length < 4 then s ++ List.replicate (4 - s.length) ' ' else s

/-- Python format `{:d}` on an integer. -/
def fmtInt (n : ℤ) : List Char :=
  (if n < 0 then ['-'] else []) ++ Nat.toDigits 10 n.natAbs

/-- Python format `{:4d}`: right-align an integer in a field of width 4. -/
def fmtIntW (w : ℕ) (n : ℤ) : List Char :=
  let body := fmtInt n
  if body.length < w then List.replicate (w - body.length) ' ' ++ body else body

/-- Shell-model force field name. -/
def catlowStr : List Char := "catlow".toList

/-- Oxygen species symbol. -/
def oStr : List Char := "O".toList

/-- Data `GULP.write` reads from an attached `pyxtal` object: the atom
sites (species symbol and position) and the space group number. -/
structure PyxW where
  atomSites : List (List Char × (ℚ × ℚ × ℚ))
  groupNumber : ℤ
  deriving DecidableEq

/-- Inputs of a `GULP.write` call.  `cellA..cellGa` are the values returned
by the external `self.lattice.get_para(degree=True)`; `speciesFromPyxtal`
models the external attribute access `self.structure.species` taken when
the calculator was built from a `pyxtal` object; `setEnum` models the
enumeration order Python's unordered `list(set(self.sites))` yields (any
duplicate-free enumeration of the distinct site symbols; the order is
hash-dependent and not fixed by the source). -/
structure WCfg where
  opt : List Char
  symmetry : Bool
  pyxtal : Option PyxW
  ff : List Char
  labelsTable : Option (List (List Char × List Char))
  sites : List (List Char)
  fracCoords : List (ℚ × ℚ × ℚ)
  speciesFromPyxtal : List (List Char)
  setEnum : List (List Char)
  cellA : ℚ
  cellB : ℚ
  cellC : ℚ
  cellAl : ℚ
  cellBe : ℚ
  cellGa : ℚ
  steps : ℤ
  pstress : Option ℚ
  dump : Option (List Char)
  deriving DecidableEq

/-- First deck line of `GULP.write`: solver mode keywords plus the
`nosymmetry` directive when symmetry is off. -/
def headerText (cfg : WCfg) : List Char :=
  (if cfg.opt = "conv".toList then
    "opti stress ".toList ++ cfg.opt ++ " conjugate ".toList
  else if cfg.opt = "single".toList then "grad conp stress ".toList
  else "opti stress ".toList ++ cfg.opt ++ " conjugate ".toList) ++
  (if cfg.symmetry then [] else "nosymmetry\n".toList)

/-- The `cell` section: six lattice parameters at `{:12.6f}`. -/
def cellText (cfg : WCfg) : List Char :=
  "\ncell\n".toList ++ fmtFixed 12 6 cfg.cellA ++ fmtFixed 12 6 cfg.cellB ++
  fmtFixed 12 6 cfg.cellC ++ fmtFixed 12 6 cfg.cellAl ++
  fmtFixed 12 6 cfg.cellBe ++ fmtFixed 12 6 cfg.cellGa ++ "\n".toList

/-- One `core` coordinate line:
`"{:4s} {:12.6f} {:12.6f} {:12.6f} core \n"`. -/
def coreLine (symbol : List Char) (x y z : ℚ) : List Char :=
  fmt4s symbol ++ " ".toList ++ fmtFixed 12 6 x ++ " ".toList ++
  fmtFixed 12 6 y ++ " ".toList ++ fmtFixed 12 6 z ++ " core \n".toList

/-- One `shell` coordinate line (emitted for oxygen under the `catlow`
force field on the symmetry branch). -/
def shellLine (symbol : List Char) (x y z : ℚ) : List Char :=
  fmt4s symbol ++ " ".toList ++ fmtFixed 12 6 x ++ " ".toList ++
  fmtFixed 12 6 y ++ " ".toList ++ fmtFixed 12 6 z ++ " shell \n".toList

/-- Coordinate lines of the symmetry branch: asymmetric-unit sites, each a
`core` line, with a paired `shell` line when the force field is `catlow`
and the species is oxygen. -/
def symCoordLines (cfg : WCfg) (p : PyxW) : List (List Char) :=
  p.atomSites.flatMap (fun s =>
    coreLine s.1 s.2.1 s.2.2.1 s.2.2.2 ::
    (if cfg.ff = catlowStr ∧ s.1 = oStr then
      [shellLine s.1 s.2.1 s.2.2.1 s.2.2.2]
    else []))

/-- Coordinate lines of the all-coordinates branch:
`for coord, site in zip(self.frac_coords, self.sites)`, one `core` line
per pair. -/
def allCoordLines (cfg : WCfg) : List (List Char) :=
  (cfg.fracCoords.zip cfg.sites).map (fun pr => coreLine pr.2 pr.1.1 pr.1.2.1 pr.1.2.2)

/-- The coordinate section: `fractional` header, then the branch on
`self.symmetry and self.pyxtal is not None`, the symmetry branch appending
the `space` and `origin` directives. -/
def coordText (cfg : WCfg) : List Char :=
  "\nfractional\n".toList ++
  (match (if cfg.symmetry then cfg.pyxtal else none) with
  | some p =>
    (symCoordLines cfg p).flatMap id ++
    "\nspace\n".toList ++ fmtInt p.groupNumber ++ "\n".toList ++
    "\norigin\n0 0 0\n".toList
  | none => (allCoordLines cfg).flatMap id)

/-- The species list iterated in the `Species` section:
`self.structure.species if self.species is not None else list(set(self.sites))`
(the attribute `self.species` is non-`None` exactly when the calculator was
built from a `pyxtal` object). -/
def speciesIterated (cfg : WCfg) : List (List Char) :=
  match cfg.pyxtal with
  | some _ => cfg.speciesFromPyxtal
  | none => cfg.setEnum

/-- Species line of the plain path: `"{:4s} core {:4s}\n"` with the species
in both fields. -/
def speciesPlainLine (sp : List Char) : List Char :=
  fmt4s sp ++ " core ".toList ++ fmt4s sp ++ "\n".toList

/-- The `Species` section: one entry per iterated species, honouring the
caller relabelling table when given, else the `catlow` oxygen core/shell
pair or the plain line. -/
def speciesText (cfg : WCfg) : List Char :=
  "\nSpecies\n".toList ++
  (match cfg.labelsTable with
  | some tbl =>
    speciesIterated cfg |>.flatMap (fun sp =>
      match tbl.lookup sp with
      | some lab => fmt4s sp ++ " core ".toList ++ lab ++ "\n".toList
      | none => speciesPlainLine sp)
  | none =>
    speciesIterated cfg |>.flatMap (fun sp =>
      if cfg.ff = catlowStr ∧ sp = oStr then
        "O    core O_O2- core\nO    shell O_O2- shell\n".toList
      else speciesPlainLine sp))

/-- Trailing directives: library, Ewald cutoff, step budget (omitted for
single-point mode), optional pressure and dump. -/
def tailText (cfg : WCfg) : List Char :=
  "\nlibrary ".toList ++ cfg.ff ++ "\n".toList ++ "ewald 10.0\n".toList ++
  (if cfg.opt = "single".toList then []
   else "maxcycle ".toList ++ fmtInt cfg.steps ++ "\n".toList) ++
  (match cfg.pstress with
  | none => []
  | some p => "pressure ".toList ++ fmtFixed 6 3 p ++ "\n".toList) ++
  (match cfg.dump with
  | none => []
  | some d => "output cif ".toList ++ d ++ "\n".toList)

/-- Model of `GULP.write`: the full deck text, in source order. -/
def gulpWriteDeck (cfg : WCfg) : List Char :=
  headerText cfg ++ cellText cfg ++ coordText cfg ++ speciesText cfg ++ tailText cfg

/-- The static atom-type table `at_types`: force-field code per
element+hybridization symbol, transcribed entry for entry. -/
def atTypes : List (List Char × List Char) :=
  [("C_c".toList, "C1".toList), ("C_cs".toList, "C2".toList),
   ("C_c1".toList, "C3".toList), ("C_c2".toList, "C4".toList),
   ("C_c3".toList, "C5".toList), ("C_ca".toList, "C6".toList),
   ("C_cp".toList, "C7".toList), ("C_cq".toList, "C8".toList),
   ("C_cc".toList, "C9".toList), ("C_cd".toList, "C10".toList),
   ("C_ce".toList, "C11".toList), ("C_cf".toList, "C12".toList),
   ("C_cg".toList, "C13".toList), ("C_ch".toList, "C14".toList),
   ("C_cx".toList, "C15".toList), ("C_cy".toList, "C14".toList),
   ("C_cu".toList, "C16".toList), ("C_cv".toList, "C17".toList),
   ("C_cz".toList, "C18".toList),
   ("H_h1".toList, "H1".toList), ("H_h2".toList, "H2".toList),
   ("H_h3".toList, "H3".toList), ("H_h4".toList, "H4".toList),
   ("H_h5".toList, "H5".toList), ("H_ha".toList, "H6".toList),
   ("H_hc".toList, "H7".toList), ("H_hn".toList, "H8".toList),
   ("H_ho".toList, "H9".toList), ("H_hp".toList, "H10".toList),
   ("H_hs".toList, "H11".toList), ("H_hw".toList, "H12".toList),
   ("H_hx".toList, "H13".toList),
   ("F".toList, "F".toList), ("Cl".toList, "Cl".toList),
   ("Br".toList, "Br".toList), ("I".toList, "I".toList),
   ("N_n".toList, "N1".toList), ("N_n1".toList, "N2".toList),
   ("N_n2".toList, "N3".toList), ("N_n3".toList, "N4".toList),
   ("N_n4".toList, "N5".toList), ("N_na".toList, "N6".toList),
   ("N_nb".toList, "N7".toList), ("N_nc".toList, "N8".toList),
   ("N_nd".toList, "N9".toList), ("N_ne".toList, "N10".toList),
   ("N_nf".toList, "N11".toList), ("N_nh".toList, "N12".toList),
   ("N_no".toList, "N13".toList), ("N_ns".toList, "N14".toList),
   ("N_nt".toList, "N15".toList), ("N_nx".toList, "N16".toList),
   ("N_ny".toList, "N17".toList), ("N_nz".toList, "N18".toList),
   ("N_n+".toList, "N19".toList), ("N_nu".toList, "N20".toList),
   ("N_nv".toList, "N21".toList), ("N_n7".toList, "N22".toList),
   ("N_n8".toList, "N23".toList), ("N_n9".toList, "N24".toList),
   ("O_o".toList, "O1".toList), ("O_oh".toList, "O2".toList),
   ("O_os".toList, "O3".toList), ("O_ow".toList, "O4".toList),
   ("P_p2".toList, "P1".toList), ("P_p3".toList, "P2".toList),
   ("P_p4".toList, "P3".toList), ("P_p5".toList, "P4".toList),
   ("P_pb".toList, "P5".toList), ("P_pc".toList, "P6".toList),
   ("P_pd".toList, "P7".toList), ("P_pe".toList, "P8".toList),
   ("P_pf".toList, "P9".toList), ("P_px".toList, "P10".toList),
   ("P_py".toList, "P11".toList),
   ("S_s".toList, "S1".toList), ("S_s2".toList, "S2".toList),
   ("S_s4".toList, "S3".toList), ("S_s6".toList, "S4".toList),
   ("S_sh".toList, "S5".toList), ("S_ss".toList, "S6".toList),
   ("S_sx".toList, "S7".toList), ("S_sy".toList, "S8".toList)]

/-- Python `at_types[symbol]` as a pure lookup (dict keys are unique, so
association-list lookup coincides with dict access). -/
def atLookup (s : List Char) : Option (List Char) :=
  atTypes.lookup s

/-- Exceptions `GULP_OC.write` can raise: the re-raised `KeyError` for an
unsupported atom type (carrying the offending symbol), or an `IndexError`
from a property table shorter than the coordinate list. -/
inductive OCErr where
  | keyErr (sym : List Char)
  | idxErr
  deriving DecidableEq

/-- One molecular site as `GULP_OC.write` consumes it: coordinates from
`_get_coords_and_species(first=True)`, per-atom species strings from
`molecule.mol.sites`, and the label/charge property tables. -/
structure OCMolSite where
  coords : List (ℚ × ℚ × ℚ)
  symbols : List (List Char)
  labels : List (List Char)
  charges : List ℚ
  deriving DecidableEq

/-- A symmetry operation as printed: the transposed rotation rows and the
translation vector (external `wp.ops` data, always a full 3×3 affine op). -/
structure OCOp where
  rot0 : ℚ × ℚ × ℚ
  rot1 : ℚ × ℚ × ℚ
  rot2 : ℚ × ℚ × ℚ
  trans : ℚ × ℚ × ℚ
  deriving DecidableEq

/-- Inputs of a `GULP_OC.write` call.  `setEnum` models the enumeration
order of `list(set(symbols))`; `stepmxStr` is the Python `str(...)`
rendering of the trust-region cap; `bonds`, `wpLen` and `lastCoordsLen`
feed the optional `connect` block (which reads the loop variables `site`
and `coords` left over from the coordinate loop). -/
structure OCWCfg where
  opt : List Char
  cellA : ℚ
  cellB : ℚ
  cellC : ℚ
  cellAl : ℚ
  cellBe : ℚ
  cellGa : ℚ
  ltype : List Char
  molSites : List OCMolSite
  setEnum : List (List Char)
  ops : List OCOp
  bondType : Bool
  bonds : List (ℤ × ℤ)
  wpLen : ℕ
  lastCoordsLen : ℕ
  ff : List Char
  steps : ℤ
  stepmxStr : List Char
  dump : Option (List Char)
  deriving DecidableEq

/-- Construct the lookup symbol of atom `j` of a molecular site: the
species string, suffixed with `_label` unless it is `F`, `Cl` or `Br`. -/
def ocSymbolAt (site : OCMolSite) (j : ℕ) : Except OCErr (List Char) :=
  match site.symbols.get? j with
  | none => Except.error OCErr.idxErr
  | some sym0 =>
    if sym0 = "F".toList ∨ sym0 = "Cl".toList ∨ sym0 = "Br".toList then
      Except.ok sym0
    else
      match site.labels.get? j with
      | none => Except.error OCErr.idxErr
      | some lab => Except.ok (sym0 ++ "_".toList ++ lab)

/-- One coordinate line of `GULP_OC.write`:
`"{:4s} {x:12.6f} {y:12.6f} {z:12.6f} core {charge:12.6f}\n"` with the
looked-up force-field code; an unregistered symbol raises the re-raised
`KeyError` carrying it. -/
def ocAtomLine (site : OCMolSite) (j : ℕ) (coord : ℚ × ℚ × ℚ) :
    Except OCErr (List Char × List Char) :=
  match ocSymbolAt site j with
  | Except.error e => Except.error e
  | Except.ok symbol =>
    match atLookup symbol with
    | none => Except.error (OCErr.keyErr symbol)
    | some code =>
      match site.charges.get? j with
      | none => Except.error OCErr.idxErr
      | some ch =>
        Except.ok (symbol,
          fmt4s code ++ " ".toList ++ fmtFixed 12 6 coord.1 ++ " ".toList ++
          fmtFixed 12 6 coord.2.1 ++ " ".toList ++ fmtFixed 12 6 coord.2.2 ++
          " core ".toList ++ fmtFixed 12 6 ch ++ "\n".toList)

/-- Coordinate loop over one molecular site (index `j` over its
coordinates): returns the constructed symbols (appended to the module-level
`symbols` list) and the emitted text. -/
def ocSiteLines (site : OCMolSite) : ℕ → List (ℚ × ℚ × ℚ) →
    Except OCErr (List (List Char) × List Char)
  | _, [] => Except.ok ([], [])
  | j, c :: cs =>
    match ocAtomLine site j c with
    | Except.error e => Except.error e
    | Except.ok pr =>
      match ocSiteLines site (j + 1) cs with
      | Except.error e => Except.error e
      | Except.ok rest => Except.ok (pr.1 :: rest.1, pr.2 ++ rest.2)

/-- Coordinate loop over all molecular sites. -/
def ocAllLines : List OCMolSite → Except OCErr (List (List Char) × List Char)
  | [] => Except.ok ([], [])
  | s :: ss =>
    match ocSiteLines s 0 s.coords with
    | Except.error e => Except.error e
    | Except.ok pr =>
      match ocAllLines ss with
      | Except.error e => Except.error e
      | Except.ok rest => Except.ok (pr.1 ++ rest.1, pr.2 ++ rest.2)

/-- The `Species` section of `GULP_OC.write`: one line per de-duplicated
constructed symbol, looked up again in `at_types` (an unregistered symbol
here raises a plain `KeyError`, modelled by the same error constructor). -/
def ocSpeciesText : List (List Char) → Except OCErr (List Char)
  | [] => Except.ok []
  | s :: ss =>
    match atLookup s with
    | none => Except.error (OCErr.keyErr s)
    | some code =>
      match ocSpeciesText ss with
      | Except.error e => Except.error e
      | Except.ok rest =>
        Except.ok (fmt4s code ++ " core ".toList ++ fmt4s s ++ "\n".toList ++ rest)

/-- One symmetry-operator block: header plus three rows of
`"{:6.3f} {:6.3f} {:6.3f} {:6.3f}\n"` (transposed rotation row, then the
translation component). -/
def ocOpText (op : OCOp) : List Char :=
  let row := fun (r : ℚ × ℚ × ℚ) (t : ℚ) =>
    fmtFixed 6 3 r.1 ++ " ".toList ++ fmtFixed 6 3 r.2.1 ++ " ".toList ++
    fmtFixed 6 3 r.2.2 ++ " ".toList ++ fmtFixed 6 3 t ++ "\n".toList
  "symmetry_operator\n".toList ++
  row op.rot0 op.trans.1 ++ row op.rot1 op.trans.2.1 ++ row op.rot2 op.trans.2.2

/-- The optional `connect` block: one directive per bond per Wyckoff copy,
with indices offset by the copy number times the length of the leaked loop
variable `coords`. -/
def ocBondText (cfg : OCWCfg) : List Char :=
  if cfg.bondType then
    cfg.bonds.flatMap (fun b =>
      (List.range cfg.wpLen).flatMap (fun i =>
        let count : ℤ := (i : ℤ) * (cfg.lastCoordsLen : ℤ)
        "connect ".toList ++ fmtIntW 4 (b.1 + count) ++ " ".toList ++
        fmtIntW 4 (b.2 + count) ++ "\n".toList))
  else []

/-- Model of `GULP_OC.write`: the full deck text in source order, or the
first raised exception.  A `KeyError` aborts generation; whatever earlier
sections were already written to the file are never handed to the process
because `run` stops before `execute`. -/
def ocWriteDeck (cfg : OCWCfg) : Except OCErr (List Char) :=
  let header :=
    (if cfg.opt = "conv".toList then
      "opti ".toList ++ cfg.opt ++ " conj molecule nomod qok\n".toList
    else "opti stress ".toList ++ cfg.opt ++ " conj molecule nomod qok\n".toList) ++
    "\ncell\n".toList ++ fmtFixed 12 6 cfg.cellA ++ fmtFixed 12 6 cfg.cellB ++
    fmtFixed 12 6 cfg.cellC ++ fmtFixed 12 6 cfg.cellAl ++
    fmtFixed 12 6 cfg.cellBe ++ fmtFixed 12 6 cfg.cellGa ++ "\n".toList ++
    "\nfractional\n".toList
  match ocAllLines cfg.molSites with
  | Except.error e => Except.error e
  | Except.ok pr =>
    match ocSpeciesText cfg.setEnum with
    | Except.error e => Except.error e
    | Except.ok spec =>
      Except.ok (header ++ pr.2 ++
    "\nSpecies\n".toList ++ spec ++
    "\nsymmetry_cell ".toList ++ cfg.ltype ++ "\n".toList ++
    cfg.ops.flatMap ocOpText ++
    ocBondText cfg ++
    "\nlibrary ".toList ++ cfg.ff ++ ".lib\n".toList ++
    "ewald 10.0\n".toList ++
    "maxcycle ".toList ++ fmtInt cfg.steps ++ "\n".toList ++
    "stepmx ".toList ++ cfg.stepmxStr ++ "\n".toList ++
    "ftol 0.0001\n".toList ++ "gtol 0.002\n".toList ++ "gmax 0.01\n".toList ++
    (match cfg.dump with
    | none => []
    | some d => "output cif ".toList ++ d ++ "\n".toList))

/-- Model of the deck-then-process step of `GULP_OC.run` (without `pause`):
`write` runs first and a raised exception propagates, so `execute` — the
external process invocation, recorded by the boolean — is reached only
when the whole deck was generated. -/
def ocRunModel (cfg : OCWCfg) : Except OCErr (List Char × Bool) :=
  match ocWriteDeck cfg with
  | Except.error e => Except.error e
  | Except.ok deck => Except.ok (deck, true)

/-- A calculator context with no symmetry, no attached `pyxtal`, no
pressure (the plain `Atoms` construction path). -/
def ctx0 : Ctx := { symmetry := false, pyxtal := none, pstress := none }

/-- A placeholder input lattice attribute value. -/
def lat0c : GLat := GLat.ofMatrix [] []

/-- Input fractional coordinates of a one-site structure. -/
def frac1 : List (List PFloat) := [[PFloat.finite 0, PFloat.finite 0, PFloat.finite 0]]

/-- A log truncated immediately after the fractional-coordinates header:
the sentinel loop runs off the end of the file. -/
def logTruncFrac : List (List Char) :=
  ["Final fractional coordinates of atoms".toList]

/-- Molecular-variant read inputs: an identity lattice matrix and a
triclinic group. -/
def ocInfo0 : OCInfo :=
  { latticeMatrix := [[1, 0, 0], [0, 1, 0], [0, 0, 1]],
    latticeType := "triclinic".toList }

/-- A log with a valid energy line and a parseable non-primitive lattice
parameter block, but no `Job Finished` marker. -/
def logNoMarker : List (List Char) :=
  ["  Total lattice energy = -1.5 eV".toList,
   "Non-primitive lattice parameters".toList,
   "".toList,
   "a = 1.0 b = 2.0 c = 3.0".toList,
   "alpha 90.0 beta 90.0 gamma 90.0".toList]

/-- The same log with the energy token replaced by `inf`, which Python's
`float()` accepts. -/
def logInfEnergy : List (List Char) :=
  ["  Total lattice energy = inf eV".toList,
   "Non-primitive lattice parameters".toList,
   "".toList,
   "a = 1.0 b = 2.0 c = 3.0".toList,
   "alpha 90.0 beta 90.0 gamma 90.0".toList]

/-- A log containing both a Cartesian-vectors block and a non-primitive
parameter block. -/
def logBothLats : List (List Char) :=
  ["Final Cartesian lattice vectors".toList,
   "".toList,
   "1.0 0.0 0.0".toList,
   "0.0 1.0 0.0".toList,
   "0.0 0.0 1.0".toList,
   "Non-primitive lattice parameters".toList,
   "".toList,
   "a = 2.0 b = 2.0 c = 2.0".toList,
   "alpha 90.0 beta 90.0 gamma 90.0".toList]

/-- The parameter-form lattice recovered from `logBothLats`. -/
def paraOfBoth : GLat :=
  GLat.ofPara (PFloat.finite 2) (PFloat.finite 2) (PFloat.finite 2)
    (PFloat.finite 90) (PFloat.finite 90) (PFloat.finite 90) ("triclinic".toList)

/-- A deck configuration on the all-coordinates branch (`symmetry=False`)
with the shell-model force field and a single oxygen site. -/
def cfgShellOff : WCfg :=
  { opt := "conp".toList, symmetry := false, pyxtal := none,
    ff := "catlow".toList, labelsTable := none, sites := ["O".toList],
    fracCoords := [(0, 0, 0)], speciesFromPyxtal := [],
    setEnum := ["O".toList], cellA := 5, cellB := 5, cellC := 5,
    cellAl := 90, cellBe := 90, cellGa := 90, steps := 1000,
    pstress := none, dump := none }

/-- The same structure on the symmetry branch: one oxygen site attached
through a `pyxtal` object. -/
def pyxW : PyxW :=
  { atomSites := [("O".toList, (0, 0, 0))], groupNumber := 1 }

/-- Symmetry-branch counterpart of `cfgShellOff`. -/
def cfgShellOn : WCfg :=
  { cfgShellOff with
    symmetry := true
    pyxtal := some pyxW
    speciesFromPyxtal := ["O".toList] }

/-- Single-point deck configuration of the C8 scenario: cubic cell with
`a=b=c=5`, right angles, one carbon site at the origin. -/
def cfgSingle : WCfg :=
  { opt := "single".toList, symmetry := false, pyxtal := none,
    ff := "tersoff.lib".toList, labelsTable := none, sites := ["C".toList],
    fracCoords := [(0, 0, 0)], speciesFromPyxtal := [],
    setEnum := ["C".toList], cellA := 5, cellB := 5, cellC := 5,
    cellAl := 90, cellBe := 90, cellGa := 90, steps := 1000,
    pstress := none, dump := none }

/-- The cell line the claim spells out: six values separated by two
spaces. -/
def claimedCellLine : List Char :=
  "5.000000  5.000000  5.000000  90.000000  90.000000  90.000000".toList

/-- The cell line the writer actually produces: six `{:12.6f}` fields,
right-aligned, hence four (resp. three) leading spaces per field. -/
def actualCellLine : List Char :=
  "    5.000000    5.000000    5.000000   90.000000   90.000000   90.000000".toList

/-- A valid enumeration of `list(set(sites))`: duplicate-free and covering
exactly the distinct elements. -/
@[reducible] def IsSetEnum (sites enum : List (List Char)) : Prop :=
  enum.Nodup ∧ (∀ x ∈ enum, x ∈ sites) ∧ (∀ x ∈ sites, x ∈ enum)

/-- Two-species site list of the determinism counterexample. -/
def sitesCO : List (List Char) := ["C".toList, "O".toList]

/-- Deck configuration over `sitesCO` parameterized by the set
enumeration the unordered `list(set(...))` happens to yield. -/
def cfgOfEnum (enum : List (List Char)) : WCfg :=
  { opt := "conp".toList, symmetry := false, pyxtal := none,
    ff := "reaxff".toList, labelsTable := none, sites := sitesCO,
    fracCoords := [(0, 0, 0), (mkRat 1 2, mkRat 1 2, mkRat 1 2)],
    speciesFromPyxtal := [], setEnum := enum, cellA := 5, cellB := 5,
    cellC := 5, cellAl := 90, cellBe := 90, cellGa := 90, steps := 1000,
    pstress := none, dump := none }

/-- Well-formedness of a molecular site: the per-atom property tables
cover every coordinate (the invariant the molecule-level property tables
guarantee in practice). -/
@[reducible] def SiteOk (s : OCMolSite) : Prop :=
  s.coords.length ≤ s.symbols.length ∧ s.coords.length ≤ s.labels.length ∧
    s.coords.length ≤ s.charges.length

/-- A molecular site whose single carbon atom carries a hybridization
label with no registered force-field code (`C_zz`). -/
def badSite : OCMolSite :=
  { coords := [(0, 0, 0)], symbols := ["C".toList],
    labels := ["zz".toList], charges := [0] }

/-- Molecular deck configuration containing the unregistered atom type. -/
def cfgBadAtom : OCWCfg :=
  { opt := "conp".toList, cellA := 5, cellB := 5, cellC := 5, cellAl := 90,
    cellBe := 90, cellGa := 90, ltype := "triclinic".toList,
    molSites := [badSite], setEnum := [], ops := [], bondType := false,
    bonds := [], wpLen := 0, lastCoordsLen := 0, ff := "gaff2".toList,
    steps := 1000, stepmxStr := "0.001".toList, dump := none }

/-- NaN test lifted to the optional energy field (`False` on `None`). -/
def pIsNanOpt : Option PFloat → Bool
  | some e => pIsNan e
  | none => false

/-- The state a `processLine` step leaves behind, whether it returned
normally or raised (the error value carries the mutations made before the
raise). -/
def outSt : Except ScanSt ScanSt → ScanSt
  | Except.ok st => st
  | Except.error st => st

/-- The result of `GULP_OC.read` on an empty log over `ocInfo0`: all
defaults, with the lattice fallen back to the input matrix. -/
def ocEmptyResult : OCResult :=
  { version := none, energy := none, optimized := false,
    cputime := PFloat.finite 0, stress := none, iterN := 0, positions := none,
    speciesL := none,
    cell := [[PFloat.finite 1, PFloat.finite 0, PFloat.finite 0],
             [PFloat.finite 0, PFloat.finite 1, PFloat.finite 0],
             [PFloat.finite 0, PFloat.finite 0, PFloat.finite 1]],
    lattice := GLat.ofMatrix
      [[PFloat.finite 1, PFloat.finite 0, PFloat.finite 0],
       [PFloat.finite 0, PFloat.finite 1, PFloat.finite 0],
       [PFloat.finite 0, PFloat.finite 0, PFloat.finite 1]]
      ("triclinic".toList) }

theorem postProcess_raised (lat0 : GLat) (st : ScanSt) :
    (postProcess lat0 st true).error = true ∧ (postProcess lat0 st true).energy = none := by
  unfold postProcess
  cases hp : st.latticePara <;> cases hv : st.latticeVector <;> simp [hp, hv]

theorem postProcess_error_iff (lat0 : GLat) (st : ScanSt) (raised : Bool) :
    ((postProcess lat0 st raised).error = true ↔ (postProcess lat0 st raised).energy = none) ∧
    ((postProcess lat0 st raised).error = false →
      pIsNanOpt (postProcess lat0 st raised).energy = false) := by
  unfold postProcess
  cases raised <;> cases hp : st.latticePara <;> cases hv : st.latticeVector <;>
    cases he : st.energy <;> simp [hp, hv, he, pIsNanOpt] <;>
    rename_i e <;> cases hn : pIsNan e <;> simp [hn, pIsNanOpt]

/-- C1 (amended): for the inorganic variant the claim holds: whenever the
scan of `GULP.read` raises, the bare `except:` converts it into
`errorFlag=True` with `energy=None`, for every log text.  (The molecular
variant `GULP_OC.read` has no such handler; see the counterexample.) -/
theorem gulp_read_catches_scan_exceptions (ctx : Ctx) (lat0 : GLat)
    (frac0 : List (List PFloat)) (lines : List (List Char))
    (h : (gulpScan ctx frac0 lines).2 = true) :
    (gulpRead ctx lat0 frac0 lines).error = true ∧
    (gulpRead ctx lat0 frac0 lines).energy = none := by
  have h2 : gulpRead ctx lat0 frac0 lines =
      postProcess lat0 (gulpScan ctx frac0 lines).1 (gulpScan ctx frac0 lines).2 := rfl
  rw [h2, h]
  exact postProcess_raised lat0 _

theorem gulp_read_catches_scan_exceptions_witness :
    (gulpScan ctx0 frac1 logTruncFrac).2 = true ∧
    ((gulpRead ctx0 lat0c frac1 logTruncFrac).error = true ∧
     (gulpRead ctx0 lat0c frac1 logTruncFrac).energy = none) :=
  ⟨by decide, gulp_read_catches_scan_exceptions ctx0 lat0c frac1 logTruncFrac (by decide)⟩

/-- C1 (counterexample): on a log truncated inside the
fractional-coordinates block, `GULP_OC.read` does not return a result with
an error flag — the exception propagates out of the parser. -/
theorem gulp_oc_read_truncated_frac_raises :
    gulpOCRead ocInfo0 logTruncFrac = Except.error () := by rfl

/-- C3 (code bug): the call site inside `optimize` passes the keyword
argument `exe`, which the signature of `single_optimize` does not accept,
so every invocation of the multi-stage driver raises `TypeError` before
any optimization stage runs — including the module's own `__main__`
smoke-test call `optimize(struc, ff="tersoff.lib")`. -/
theorem optimize_unsupported_exe_keyword :
    (optimizeCallKeywords.contains ("exe".toList) = true ∧
     singleOptimizeParamNames.contains ("exe".toList) = false) ∧
    ∀ (stage : Option DStruc → List Char → StageRes) (adjust : Bool)
      (opts : Option (List (List Char))) (struc0 : Option DStruc),
      optimizeModel stage adjust opts struc0 = Except.error () := by
  refine ⟨⟨by decide, by decide⟩, ?_⟩
  intro stage adjust opts struc0
  unfold optimizeModel
  cases h : opts.getD ["conp".toList, "conp".toList] with
  | nil => rfl
  | cons m rest =>
    have hk : optimizeKwargsOk = false := by decide
    simp [optimizeLoop, hk]

/-- C4 (amended): after every `GULP.read`, the error flag is set exactly
when the energy is `None`, and an error-free result never carries a `nan`
energy (infinite energies, however, pass the `np.isnan` check; see the
counterexample). -/
theorem gulp_read_error_energy_agreement (ctx : Ctx) (lat0 : GLat)
    (frac0 : List (List PFloat)) (lines : List (List Char)) :
    ((gulpRead ctx lat0 frac0 lines).error = true ↔
      (gulpRead ctx lat0 frac0 lines).energy = none) ∧
    ((gulpRead ctx lat0 frac0 lines).error = false →
      pIsNanOpt (gulpRead ctx lat0 frac0 lines).energy = false) := by
  unfold gulpRead
  exact postProcess_error_iff lat0 _ _

theorem gulp_read_error_energy_agreement_witness :
    (gulpRead ctx0 lat0c frac1 logTruncFrac).energy = none :=
  (gulp_read_error_energy_agreement ctx0 lat0c frac1 logTruncFrac).1.mp (by decide)

/-- C4 (counterexample): a log whose energy token is `inf` and which
carries a parseable lattice block yields `errorFlag=False` with the
non-finite energy `inf` retained — the final check tests only `np.isnan`,
not finiteness. -/
theorem gulp_read_inf_energy_no_error :
    (gulpRead ctx0 lat0c frac1 logInfEnergy).error = false ∧
    (gulpRead ctx0 lat0c frac1 logInfEnergy).energy = some PFloat.inf := by
  exact ⟨by decide, by decide⟩

/-- C5: the final lattice of `GULP.read` is the parameter-form one
whenever the non-primitive-parameters block was parsed, and the
vector-form one when only the Cartesian-vectors block was; a single
lattice value is retained either way. -/
theorem gulp_read_lattice_precedence (ctx : Ctx) (lat0 : GLat)
    (frac0 : List (List PFloat)) (lines : List (List Char)) :
    (∀ lp, (gulpScan ctx frac0 lines).1.latticePara = some lp →
      (gulpRead ctx lat0 frac0 lines).lattice = lp) ∧
    (∀ lv, (gulpScan ctx frac0 lines).1.latticePara = none →
      (gulpScan ctx frac0 lines).1.latticeVector = some lv →
      (gulpRead ctx lat0 frac0 lines).lattice = lv) := by
  unfold gulpRead postProcess
  constructor
  · intro lp h
    simp [h]
  · intro lv h1 h2
    simp [h1, h2]

theorem gulp_read_lattice_precedence_witness :
    (gulpScan ctx0 frac1 logBothLats).1.latticePara = some paraOfBoth ∧
    ¬ (gulpScan ctx0 frac1 logBothLats).1.latticeVector = none ∧
    (gulpRead ctx0 lat0c frac1 logBothLats).lattice = paraOfBoth :=
  ⟨by decide, by decide,
   (gulp_read_lattice_precedence ctx0 lat0c frac1 logBothLats).1 paraOfBoth (by decide)⟩

theorem processLine_optimized (ctx : Ctx) (lines : List (List Char)) (i : ℕ)
    (line : List Char) (st : ScanSt) (hj : containsL jobLit line = false) :
    (outSt (processLine ctx lines i line st)).optimized = st.optimized := by
  unfold processLine
  repeat' split
  all_goals try simp_all [outSt]
  rename_i v hv
  cases hd : pdivLen v st.fracCoords.length <;> simp_all [outSt]

theorem scanAux_optimized (ctx : Ctx) (lines : List (List Char)) :
    ∀ (rest : List (List Char)) (i : ℕ) (st : ScanSt),
    (∀ l ∈ rest, containsL jobLit l = false) →
    ((scanAux ctx lines rest i st).1).optimized = st.optimized := by
  intro rest
  induction rest with
  | nil => intro i st _; rfl
  | cons l tl ih =>
    intro i st h
    have hl : containsL jobLit l = false := h l (by simp)
    have htl : ∀ x ∈ tl, containsL jobLit x = false := fun x hx => h x (by simp [hx])
    have hp := processLine_optimized ctx lines i l st hl
    unfold scanAux
    cases hres : processLine ctx lines i l st with
    | ok st1 =>
      rw [hres] at hp
      simp only [outSt] at hp
      rw [ih (i + 1) st1 htl, hp]
    | error st1 =>
      rw [hres] at hp
      simp only [outSt] at hp
      exact hp

/-- C2 (amended): a log lacking the `Job Finished` marker always yields a
result whose completion flag `optimized` is `False`; the error flag and
the energy are governed independently by the lattice and energy recovery
(see the counterexample, where both survive without the marker). -/
theorem gulp_read_no_marker_not_optimized (ctx : Ctx) (lat0 : GLat)
    (frac0 : List (List PFloat)) (lines : List (List Char))
    (h : ∀ l ∈ lines, containsL jobLit l = false) :
    (gulpRead ctx lat0 frac0 lines).optimized = false := by
  have h2 : gulpRead ctx lat0 frac0 lines =
      postProcess lat0 (gulpScan ctx frac0 lines).1 (gulpScan ctx frac0 lines).2 := rfl
  have h3 : ∀ (l0 : GLat) (st : ScanSt) (b : Bool),
      (postProcess l0 st b).optimized = st.optimized := by
    intro l0 st b
    rfl
  rw [h2, h3]
  exact scanAux_optimized ctx lines lines 0 (initScan frac0) h

theorem gulp_read_no_marker_witness :
    (gulpRead ctx0 lat0c frac1 logNoMarker).optimized = false :=
  gulp_read_no_marker_not_optimized ctx0 lat0c frac1 logNoMarker (by decide)

/-- C2 (counterexample): a log with a valid energy line and lattice block
but no `Job Finished` marker is parsed with `errorFlag=False` and the
numeric energy retained, contradicting the claim that the missing marker
forces `errorFlag=True` and `energy=None`. -/
theorem gulp_read_no_marker_keeps_energy :
    (logNoMarker.all (fun l => !(containsL jobLit l))) = true ∧
    (gulpRead ctx0 lat0c frac1 logNoMarker).error = false ∧
    (gulpRead ctx0 lat0c frac1 logNoMarker).energy =
      some (PFloat.finite (mkRat (-3) 2)) :=
  ⟨by decide, by decide, by decide⟩

theorem ocProcessLine_cell (lines : List (List Char)) (i : ℕ) (line : List Char)
    (st st1 : OCSt) (hc : containsL cartLit line = false)
    (h : ocProcessLine lines i line st = Except.ok st1) :
    st1.cell = st.cell := by
  unfold ocProcessLine at h
  repeat' split at h
  all_goals try simp_all
  all_goals (cases h; rfl)

theorem ocScanAux_cell (lines : List (List Char)) :
    ∀ (rest : List (List Char)) (i : ℕ) (st st1 : OCSt),
    (∀ l ∈ rest, containsL cartLit l = false) →
    ocScanAux lines rest i st = Except.ok st1 →
    st1.cell = st.cell := by
  intro rest
  induction rest with
  | nil =>
    intro i st st1 _ h
    unfold ocScanAux at h
    cases h
    rfl
  | cons l tl ih =>
    intro i st st1 h hs
    have hl : containsL cartLit l = false := h l (by simp)
    have htl : ∀ x ∈ tl, containsL cartLit x = false := fun x hx => h x (by simp [hx])
    unfold ocScanAux at hs
    cases hres : ocProcessLine lines i l st with
    | error e => rw [hres] at hs; cases hs
    | ok stm =>
      rw [hres] at hs
      have h1 := ocProcessLine_cell lines i l st stm hl hres
      have h2 := ih (i + 1) stm st1 htl hs
      rw [h2, h1]

/-- C10: when the log contains no `Final Cartesian lattice vectors` block
and `GULP_OC.read` returns, the result's cell silently falls back to the
input structure's lattice matrix and `self.lattice` is rebuilt from it; the
molecular variant exposes no error flag for this (its result record has
none at all). -/
theorem oc_read_lattice_fallback (info : OCInfo) (lines : List (List Char))
    (h : ∀ l ∈ lines, containsL cartLit l = false) (r : OCResult)
    (hr : gulpOCRead info lines = Except.ok r) :
    r.cell = info.latticeMatrix.map (fun row => row.map PFloat.finite) ∧
    r.lattice = GLat.ofMatrix
      (info.latticeMatrix.map (fun row => row.map PFloat.finite)) info.latticeType := by
  unfold gulpOCRead at hr
  cases hs : ocScanAux lines lines 0 initOC with
  | error e => rw [hs] at hr; cases hr
  | ok st =>
    rw [hs] at hr
    dsimp only [] at hr
    have hc : st.cell = none := ocScanAux_cell lines lines 0 initOC st h hs
    rw [hc] at hr
    cases hr
    exact ⟨rfl, rfl⟩

theorem oc_read_lattice_fallback_witness :
    gulpOCRead ocInfo0 ([] : List (List Char)) = Except.ok ocEmptyResult ∧
    (ocEmptyResult.cell =
      ocInfo0.latticeMatrix.map (fun row => row.map PFloat.finite) ∧
     ocEmptyResult.lattice = GLat.ofMatrix
      (ocInfo0.latticeMatrix.map (fun row => row.map PFloat.finite)) ocInfo0.latticeType) :=
  ⟨by rfl, oc_read_lattice_fallback ocInfo0 [] (by simp) ocEmptyResult (by rfl)⟩

theorem get?_append_shift {α : Type} (l1 l2 : List α) (i : ℕ) :
    (l1 ++ l2).get? (l1.length + i) = l2.get? i := by
  induction l1 with
  | nil => simp
  | cons a tl ih => simpa [Nat.succ_add] using ih

/-- C6 (amended): under the `catlow` force field, on the symmetry branch
every oxygen site's `core` line is immediately followed by a `shell` line
at the same coordinate; the all-coordinates branch emits no shell lines at
all (see the counterexample). -/
theorem sym_catlow_oxygen_shell_paired (cfg : WCfg) (hff : cfg.ff = catlowStr) :
    ∀ (p : PyxW) (j : ℕ) (s : List Char × (ℚ × ℚ × ℚ)),
      p.atomSites.get? j = some s → s.1 = oStr →
      ∃ i, (symCoordLines cfg p).get? i =
             some (coreLine s.1 s.2.1 s.2.2.1 s.2.2.2) ∧
           (symCoordLines cfg p).get? (i + 1) =
             some (shellLine s.1 s.2.1 s.2.2.1 s.2.2.2) := by
  intro p
  obtain ⟨sites, g⟩ := p
  induction sites with
  | nil =>
    intro j s hj _
    simp at hj
  | cons a tl ih =>
    intro j s hj hO
    cases j with
    | zero =>
      have ha : a = s := by
        have : some a = some s := hj
        injection this
      subst ha
      refine ⟨0, ?_, ?_⟩
      · simp [symCoordLines, hff, hO]
      · simp [symCoordLines, hff, hO]
    | succ j =>
      have hj2 : tl.get? j = some s := hj
      obtain ⟨i, h1, h2⟩ := ih j s hj2 hO
      have hcons : symCoordLines cfg ⟨a :: tl, g⟩ =
          symCoordLines cfg ⟨[a], g⟩ ++ symCoordLines cfg ⟨tl, g⟩ := by
        simp [symCoordLines]
      refine ⟨(symCoordLines cfg ⟨[a], g⟩).length + i, ?_, ?_⟩
      · rw [hcons, get?_append_shift]
        exact h1
      · have hsh : (symCoordLines cfg ⟨[a], g⟩).length + i + 1 =
            (symCoordLines cfg ⟨[a], g⟩).length + (i + 1) := by omega
        rw [hcons, hsh, get?_append_shift]
        exact h2

theorem sym_catlow_oxygen_shell_paired_witness :
    cfgShellOn.ff = catlowStr ∧
    (∃ i, (symCoordLines cfgShellOn pyxW).get? i = some (coreLine oStr 0 0 0) ∧
          (symCoordLines cfgShellOn pyxW).get? (i + 1) = some (shellLine oStr 0 0 0)) :=
  ⟨rfl, sym_catlow_oxygen_shell_paired cfgShellOn rfl pyxW 0 (oStr, (0, 0, 0)) rfl rfl⟩

/-- C6 (counterexample): with `symmetry=False` the writer takes the
all-coordinates branch, which emits only `core` lines — a `catlow` deck
with one oxygen site has no shell coordinate line at all, refuting the
claim for the non-symmetry branch. -/
theorem nosym_catlow_oxygen_no_shell :
    allCoordLines cfgShellOff = [coreLine oStr 0 0 0] ∧
    containsL ("shell".toList) (coordText cfgShellOff) = false :=
  ⟨by decide, by decide⟩

/-- C8 (amended): the single-point deck for the cubic one-carbon scenario
carries a `grad conp stress` header and no `maxcycle` directive, and its
`cell` line holds the six values in right-aligned 12-character `{:12.6f}`
fields — i.e. with four (three) leading spaces per field, not the
two-space separation the claim spells out. -/
theorem single_point_deck_contents :
    containsL ("grad conp stress".toList) (gulpWriteDeck cfgSingle) = true ∧
    cellText cfgSingle = "\ncell\n".toList ++ actualCellLine ++ "\n".toList ∧
    containsL ("maxcycle".toList) (gulpWriteDeck cfgSingle) = false :=
  ⟨by decide, by decide, by decide⟩

/-- C8 (counterexample): the exact cell line the claim requires (fields
separated by two spaces) does not occur in the generated deck. -/
theorem single_point_cell_line_spacing :
    containsL claimedCellLine (gulpWriteDeck cfgSingle) = false ∧
    ¬ actualCellLine = claimedCellLine :=
  ⟨by decide, by decide⟩

/-- C9 (amended): the `Species` section of the inorganic deck iterates a
duplicate-free list covering exactly the distinct site symbols (one plain
line per species on the non-`catlow`, no-relabelling path), but the order
is whatever enumeration the unordered `list(set(...))` yields — it is not
deterministic across interpreter runs (see the counterexample). -/
theorem species_section_dedup (cfg : WCfg) (hp : cfg.pyxtal = none)
    (hl : cfg.labelsTable = none) (hff : ¬ cfg.ff = catlowStr)
    (he : IsSetEnum cfg.sites cfg.setEnum) :
    (speciesIterated cfg).Nodup ∧
    (∀ x, x ∈ speciesIterated cfg ↔ x ∈ cfg.sites) ∧
    speciesText cfg = "\nSpecies\n".toList ++
      (speciesIterated cfg).flatMap speciesPlainLine := by
  have hsi : speciesIterated cfg = cfg.setEnum := by
    unfold speciesIterated
    rw [hp]
  obtain ⟨hnd, hsub, hsup⟩ := he
  refine ⟨by rw [hsi]; exact hnd, ?_, ?_⟩
  · intro x
    rw [hsi]
    exact ⟨fun h => hsub x h, fun h => hsup x h⟩
  · unfold speciesText
    rw [hl]
    have hstep : ∀ l : List (List Char),
        (l.flatMap (fun sp =>
          if cfg.ff = catlowStr ∧ sp = oStr then
            "O    core O_O2- core\nO    shell O_O2- shell\n".toList
          else speciesPlainLine sp)) = l.flatMap speciesPlainLine := by
      intro l
      induction l with
      | nil => rfl
      | cons a tl ih => simp [hff, ih]
    exact congrArg (fun t => "\nSpecies\n".toList ++ t) (hstep _)

theorem species_section_dedup_witness :
    (speciesIterated (cfgOfEnum sitesCO)).Nodup ∧
    (∀ x, x ∈ speciesIterated (cfgOfEnum sitesCO) ↔ x ∈ (cfgOfEnum sitesCO).sites) ∧
    speciesText (cfgOfEnum sitesCO) = "\nSpecies\n".toList ++
      (speciesIterated (cfgOfEnum sitesCO)).flatMap speciesPlainLine :=
  species_section_dedup (cfgOfEnum sitesCO) rfl rfl (by decide) (by decide)

set_option maxRecDepth 8192 in
/-- C9 (counterexample): two enumerations that are both valid results of
the unordered set de-duplication over the same input produce different
deck texts, so two runs of the writer on the same input need not agree —
the order is hash-dependent, not deterministic. -/
theorem species_order_not_deterministic :
    IsSetEnum sitesCO ["C".toList, "O".toList] ∧
    IsSetEnum sitesCO ["O".toList, "C".toList] ∧
    ¬ gulpWriteDeck (cfgOfEnum ["C".toList, "O".toList]) =
      gulpWriteDeck (cfgOfEnum ["O".toList, "C".toList]) :=
  ⟨by decide, by decide, by decide⟩

theorem ocSymbolAt_ok (site : OCMolSite) (j : ℕ) (hj : j < site.coords.length)
    (hw : SiteOk site) : ∃ sym, ocSymbolAt site j = Except.ok sym := by
  obtain ⟨h1, h2, _⟩ := hw
  have hs : site.symbols.get? j = some (site.symbols.get ⟨j, lt_of_lt_of_le hj h1⟩) :=
    List.get?_eq_get (lt_of_lt_of_le hj h1)
  unfold ocSymbolAt
  simp only [hs]
  by_cases hh : site.symbols.get ⟨j, lt_of_lt_of_le hj h1⟩ = "F".toList ∨
      site.symbols.get ⟨j, lt_of_lt_of_le hj h1⟩ = "Cl".toList ∨
      site.symbols.get ⟨j, lt_of_lt_of_le hj h1⟩ = "Br".toList
  · exact ⟨_, by rw [if_pos hh]⟩
  · have hlab : site.labels.get? j = some (site.labels.get ⟨j, lt_of_lt_of_le hj h2⟩) :=
      List.get?_eq_get (lt_of_lt_of_le hj h2)
    rw [if_neg hh, hlab]
    exact ⟨_, rfl⟩

theorem ocAtomLine_cases (site : OCMolSite) (j : ℕ) (coord : ℚ × ℚ × ℚ)
    (hj : j < site.coords.length) (hw : SiteOk site) :
    (∃ out sym, ocAtomLine site j coord = Except.ok out ∧
       ocSymbolAt site j = Except.ok sym ∧ (atLookup sym).isSome = true) ∨
    (∃ sym, ocAtomLine site j coord = Except.error (OCErr.keyErr sym) ∧
       atLookup sym = none) := by
  obtain ⟨sym, hsym⟩ := ocSymbolAt_ok site j hj hw
  unfold ocAtomLine
  simp only [hsym]
  cases ha : atLookup sym with
  | none => exact Or.inr ⟨sym, rfl, ha⟩
  | some code =>
    obtain ⟨_, _, h3⟩ := hw
    have hch : site.charges.get? j = some (site.charges.get ⟨j, lt_of_lt_of_le hj h3⟩) :=
      List.get?_eq_get (lt_of_lt_of_le hj h3)
    rw [hch]
    exact Or.inl ⟨_, sym, rfl, rfl, by rw [ha]; rfl⟩

theorem ocSiteLines_cases (site : OCMolSite) (hw : SiteOk site) :
    ∀ (cs : List (ℚ × ℚ × ℚ)) (j : ℕ), j + cs.length ≤ site.coords.length →
    (∃ out, ocSiteLines site j cs = Except.ok out) ∨
    (∃ sym, ocSiteLines site j cs = Except.error (OCErr.keyErr sym) ∧
       atLookup sym = none) := by
  intro cs
  induction cs with
  | nil => intro j _; exact Or.inl ⟨([], []), rfl⟩
  | cons c tl ih =>
    intro j hlen
    have hj : j < site.coords.length := by
      simp only [List.length_cons] at hlen
      omega
    rcases ocAtomLine_cases site j c hj hw with ⟨out, sym, hok, _, _⟩ | ⟨sym, herr, hnone⟩
    · rcases ih (j + 1) (by simp only [List.length_cons] at hlen; omega) with
        ⟨out2, hok2⟩ | ⟨sym2, herr2, hnone2⟩
      · refine Or.inl ⟨(out.1 :: out2.1, out.2 ++ out2.2), ?_⟩
        unfold ocSiteLines
        rw [hok, hok2]
      · refine Or.inr ⟨sym2, ?_, hnone2⟩
        unfold ocSiteLines
        rw [hok, herr2]
    · refine Or.inr ⟨sym, ?_, hnone⟩
      unfold ocSiteLines
      rw [herr]

theorem ocAtomLine_ok_registered (site : OCMolSite) (j : ℕ) (coord : ℚ × ℚ × ℚ)
    (out : List Char × List Char) (h : ocAtomLine site j coord = Except.ok out) :
    ∃ sym, ocSymbolAt site j = Except.ok sym ∧ (atLookup sym).isSome = true := by
  unfold ocAtomLine at h
  repeat' split at h
  all_goals simp_all

theorem ocSiteLines_ok_registered (site : OCMolSite) :
    ∀ (cs : List (ℚ × ℚ × ℚ)) (j : ℕ) (out : List (List Char) × List Char),
    ocSiteLines site j cs = Except.ok out →
    ∀ k, k < cs.length →
      ∃ sym, ocSymbolAt site (j + k) = Except.ok sym ∧ (atLookup sym).isSome = true := by
  intro cs
  induction cs with
  | nil => intro j out _ k hk; simp at hk
  | cons c tl ih =>
    intro j out h k hk
    unfold ocSiteLines at h
    cases hA : ocAtomLine site j c with
    | error e => rw [hA] at h; cases h
    | ok pr =>
      rw [hA] at h
      cases hR : ocSiteLines site (j + 1) tl with
      | error e => rw [hR] at h; cases h
      | ok rest =>
        cases k with
        | zero => simpa using ocAtomLine_ok_registered site j c pr hA
        | succ k =>
          have hk2 : k < tl.length := by simpa using hk
          have := ih (j + 1) rest hR k hk2
          have hsh : j + 1 + k = j + (k + 1) := by omega
          rwa [hsh] at this

theorem ocAllLines_cases :
    ∀ (sites : List OCMolSite), (∀ s ∈ sites, SiteOk s) →
    (∃ out, ocAllLines sites = Except.ok out) ∨
    (∃ sym, ocAllLines sites = Except.error (OCErr.keyErr sym) ∧
       atLookup sym = none) := by
  intro sites
  induction sites with
  | nil => intro _; exact Or.inl ⟨([], []), rfl⟩
  | cons s ss ih =>
    intro hw
    have hs : SiteOk s := hw s (by simp)
    have hss : ∀ x ∈ ss, SiteOk x := fun x hx => hw x (by simp [hx])
    rcases ocSiteLines_cases s hs s.coords 0 (by omega) with ⟨out, hok⟩ | ⟨sym, herr, hnone⟩
    · rcases ih hss with ⟨out2, hok2⟩ | ⟨sym2, herr2, hnone2⟩
      · refine Or.inl ⟨(out.1 ++ out2.1, out.2 ++ out2.2), ?_⟩
        unfold ocAllLines
        rw [hok, hok2]
      · refine Or.inr ⟨sym2, ?_, hnone2⟩
        unfold ocAllLines
        rw [hok, herr2]
    · refine Or.inr ⟨sym, ?_, hnone⟩
      unfold ocAllLines
      rw [herr]

theorem ocAllLines_ok_registered :
    ∀ (sites : List OCMolSite) (out : List (List Char) × List Char),
    ocAllLines sites = Except.ok out →
    ∀ s ∈ sites, ∀ j, j < s.coords.length →
      ∃ sym, ocSymbolAt s j = Except.ok sym ∧ (atLookup sym).isSome = true := by
  intro sites
  induction sites with
  | nil => intro out _ s hs; simp at hs
  | cons a ss ih =>
    intro out h s hs j hj
    unfold ocAllLines at h
    cases hA : ocSiteLines a 0 a.coords with
    | error e => rw [hA] at h; cases h
    | ok pr =>
      rw [hA] at h
      cases hR : ocAllLines ss with
      | error e => rw [hR] at h; cases h
      | ok rest =>
        rcases List.mem_cons.mp hs with hsa | hsm
        · subst hsa
          simpa using ocSiteLines_ok_registered s s.coords 0 pr hA j hj
        · exact ih rest hR s hsm j hj

theorem ocSpeciesText_cases :
    ∀ (enum : List (List Char)),
    (∃ out, ocSpeciesText enum = Except.ok out) ∨
    (∃ sym, ocSpeciesText enum = Except.error (OCErr.keyErr sym) ∧
       atLookup sym = none) := by
  intro enum
  induction enum with
  | nil => exact Or.inl ⟨[], rfl⟩
  | cons s ss ih =>
    cases ha : atLookup s with
    | none =>
      refine Or.inr ⟨s, ?_, ha⟩
      unfold ocSpeciesText
      rw [ha]
    | some code =>
      rcases ih with ⟨out, hok⟩ | ⟨sym, herr, hnone⟩
      · refine Or.inl
          ⟨fmt4s code ++ " core ".toList ++ fmt4s s ++ "\n".toList ++ out, ?_⟩
        unfold ocSpeciesText
        rw [ha, hok]
      · refine Or.inr ⟨sym, ?_, hnone⟩
        unfold ocSpeciesText
        rw [ha, herr]

/-- C7: on a well-formed molecular structure, deck generation fails only
with the re-raised unsupported-atom-type `KeyError`, carrying a symbol
that is indeed unregistered (no silent default is ever written: a deck
that is produced has every atom's symbol registered), and on such a
failure the external process is never invoked.  The registry itself is the
fixed pure table `at_types`, so classification of a registered pair is a
lookup returning the same code on every call. -/
theorem oc_write_unsupported_atom_hard_fail (cfg : OCWCfg)
    (hwf : ∀ site ∈ cfg.molSites, SiteOk site) :
    (∀ e, ocWriteDeck cfg = Except.error e →
       ∃ s, e = OCErr.keyErr s ∧ atLookup s = none) ∧
    (∀ deck, ocWriteDeck cfg = Except.ok deck →
       ∀ site ∈ cfg.molSites, ∀ j, j < site.coords.length →
         ∃ sym, ocSymbolAt site j = Except.ok sym ∧ (atLookup sym).isSome = true) ∧
    (∀ e, ocWriteDeck cfg = Except.error e →
       ∀ pr, ¬ ocRunModel cfg = Except.ok pr) ∧
    (∀ sym code, atLookup sym = some code →
       ocSpeciesText [sym] =
         Except.ok (fmt4s code ++ " core ".toList ++ fmt4s sym ++ "\n".toList)) := by
  refine ⟨?_, ?_, ?_, ?_⟩
  · intro e he
    unfold ocWriteDeck at he
    rcases ocAllLines_cases cfg.molSites hwf with ⟨out, hok⟩ | ⟨sym, herr, hnone⟩
    · rw [hok] at he
      rcases ocSpeciesText_cases cfg.setEnum with ⟨out2, hok2⟩ | ⟨sym2, herr2, hnone2⟩
      · rw [hok2] at he
        cases he
      · rw [herr2] at he
        cases he
        exact ⟨sym2, rfl, hnone2⟩
    · rw [herr] at he
      cases he
      exact ⟨sym, rfl, hnone⟩
  · intro deck hd site hsite j hj
    unfold ocWriteDeck at hd
    cases hA : ocAllLines cfg.molSites with
    | error e => rw [hA] at hd; cases hd
    | ok pr => exact ocAllLines_ok_registered cfg.molSites pr hA site hsite j hj
  · intro e he pr hrun
    unfold ocRunModel at hrun
    rw [he] at hrun
    cases hrun
  · intro sym code hc
    unfold ocSpeciesText
    rw [hc]
    unfold ocSpeciesText
    simp

theorem oc_write_unsupported_atom_hard_fail_witness :
    ocWriteDeck cfgBadAtom = Except.error (OCErr.keyErr ("C_zz".toList)) ∧
    (∃ s, OCErr.keyErr ("C_zz".toList) = OCErr.keyErr s ∧ atLookup s = none) ∧
    ∀ pr, ¬ ocRunModel cfgBadAtom = Except.ok pr :=
  ⟨by rfl,
   (oc_write_unsupported_atom_hard_fail cfgBadAtom (by decide)).1 _ (by rfl),
   fun pr => (oc_write_unsupported_atom_hard_fail cfgBadAtom (by decide)).2.2.1 _ (by rfl) pr⟩
